import Mathlib

/-!
Verification development for the `ksau-web-backend` service: a shallow
embedding of `main.go`, `api/upload.go` and the auxiliary api file
(system/quota handlers, `ParseRemotes`) together with theorems settling
the specification claims about them.

Conventions of the embedding:
* Go strings are Lean `String`s; where character-level processing matters
  (trimming, splitting) we work on `List Char`.
* Go `int64` is Lean `Int`.
* Network and filesystem effects (building the Azure client, creating the
  temp file, copying the body, running the upload) are oracles recorded in
  an `Env` structure; the handler model is a pure function of the request
  and the oracle outcomes, and additionally returns the ordered list of
  side-effecting steps it performed, so temporal claims can be stated.
-/

namespace KsauWeb

/-! ### Go string primitives -/

/-- The whitespace characters trimmed by Go's `strings.TrimSpace`
(restricted to the ASCII range; the config format is ASCII). -/
def isGoSpace (c : Char) : Bool :=
  c == ' ' || c == '\t' || c == '\n' || c == '\r' || c == '\x0b' || c == '\x0c'

/-- A character of the cutset `"[]"` used by `strings.Trim(line, "[]")`. -/
def isBracketChar (c : Char) : Bool :=
  c == '[' || c == ']'

/-- Drop trailing characters satisfying `p` (the right half of Go's
`strings.Trim`/`strings.TrimSpace`), by structural recursion. -/
def dropTrailing (p : Char → Bool) : List Char → List Char
  | [] => []
  | c :: cs =>
    match dropTrailing p cs with
    | [] => if p c then [] else [c]
    | r => c :: r

/-- Go `strings.Trim(s, cutset)` on character lists: drop leading and
trailing characters satisfying `p`. -/
def goTrim (p : Char → Bool) (cs : List Char) : List Char :=
  dropTrailing p (cs.dropWhile p)

/-- Split a character list at every occurrence of `sep`
(Go `strings.Split`: the separators are removed, empty fields kept). -/
def splitOnChar (sep : Char) : List Char → List (List Char)
  | [] => [[]]
  | c :: cs =>
    let r := splitOnChar sep cs
    if c == sep then [] :: r
    else
      match r with
      | [] => [[c]]
      | l :: ls => (c :: l) :: ls

/-! ### ParseRemotes (auxiliary api file)

```go
func ParseRemotes(config string) []string {
    var remotes []string
    lines := strings.Split(config, "\n")
    for _, line := range lines {
        line = strings.TrimSpace(line)
        if strings.HasPrefix(line, "[") && strings.HasSuffix(line, "]") {
            remote := strings.Trim(line, "[]")
            if remote != "" {
                remotes = append(remotes, remote)
            }
        }
    }
    return remotes
}
```
-/

/-- The body of `ParseRemotes`' loop for one line: trim whitespace, demand
a leading `[` and a trailing `]`, strip every leading/trailing bracket
character (`strings.Trim(line, "[]")`), keep the name when non-empty. -/
def parseRemotesLine (line : List Char) : Option (List Char) :=
  let l := goTrim isGoSpace line
  if l.head? = some '[' ∧ l.getLast? = some ']' then
    let r := goTrim isBracketChar l
    if r = [] then none else some r
  else none

/-- `ParseRemotes` from the auxiliary api file: section names of the
credential store, in file order. -/
def ParseRemotes (config : String) : List String :=
  ((splitOnChar '\n' config.toList).filterMap parseRemotesLine).map
    (fun cs => String.mk cs)

/-- The claim's reading of the loop body: the *enclosing* brackets — the
single leading `[` and trailing `]` that the prefix/suffix test found —
are removed, nothing more. -/
def claimRemotesLine (line : List Char) : Option (List Char) :=
  let l := goTrim isGoSpace line
  if l.head? = some '[' ∧ l.getLast? = some ']' then
    let r := (l.drop 1).dropLast
    if r = [] then none else some r
  else none

/-- The claim C8 as stated: section listing with only the one enclosing
bracket pair removed from each section line. -/
def claimParseRemotes (config : String) : List String :=
  ((splitOnChar '\n' config.toList).filterMap claimRemotesLine).map
    (fun cs => String.mk cs)

/-- Drop trailing characters satisfying `p`, phrased via reversal — the
formulation used by the amended specification text. -/
def dropTrailingRev (p : Char → Bool) (cs : List Char) : List Char :=
  (cs.reverse.dropWhile p).reverse

/-- Amended reading of one section line: surrounding whitespace trimmed,
a leading `[` and trailing `]` required, then *all* leading and trailing
bracket characters removed; empty names discarded. -/
def amendedRemotesLine (line : List Char) : Option (List Char) :=
  let l := dropTrailingRev isGoSpace (line.dropWhile isGoSpace)
  if l.head? = some '[' ∧ l.getLast? = some ']' then
    let r := dropTrailingRev isBracketChar (l.dropWhile isBracketChar)
    if r = [] then none else some r
  else none

/-- The amended claim C8, written as its own recursion over the lines:
in order of occurrence, the non-empty names of the section lines. -/
def amendedListRemotes : List (List Char) → List (List Char)
  | [] => []
  | l :: ls =>
    match amendedRemotesLine l with
    | some n => n :: amendedListRemotes ls
    | none => amendedListRemotes ls

/-- The amended claim C8 over whole configuration texts. -/
def amendedParseRemotes (config : String) : List String :=
  (amendedListRemotes (splitOnChar '\n' config.toList)).map
    (fun cs => String.mk cs)

/-! ### strconv.ParseInt (base 10, bit size 64) -/

/-- ASCII decimal digit test. -/
def isDigitChar (c : Char) : Bool :=
  48 ≤ c.toNat && c.toNat ≤ 57

/-- The magnitude of an all-digit, non-empty character list; `none`
otherwise (Go `strconv`'s syntax error). -/
def parseDigits (cs : List Char) : Option Nat :=
  if cs = [] then none
  else if cs.all isDigitChar then
    some (cs.foldl (fun a c => a * 10 + (c.toNat - 48)) 0)
  else none

/-- Go `strconv.ParseInt(s, 10, 64)` as used by the upload handler:
optional sign, non-empty digit run, 64-bit range check; the handler treats
any error as a rejection, so errors are `none`. -/
def parseInt64 (s : String) : Option Int :=
  match s.toList with
  | '+' :: rest =>
    match parseDigits rest with
    | some n => if n ≤ 2 ^ 63 - 1 then some (n : Int) else none
    | none => none
  | '-' :: rest =>
    match parseDigits rest with
    | some n => if n ≤ 2 ^ 63 then some (-(n : Int)) else none
    | none => none
  | cs =>
    match parseDigits cs with
    | some n => if n ≤ 2 ^ 63 - 1 then some (n : Int) else none
    | none => none

/-! ### Compiled-in remote tables and constants (`api/upload.go`) -/

/-- `rootFolders`: the compiled-in map from remote name to root folder. -/
def rootFolders (remote : String) : Option String :=
  if remote = "hakimionedrive" then some "Public"
  else if remote = "oned" then some ""
  else if remote = "saurajcf" then some "MY_BOMT_STUFFS"
  else none

/-- `baseURLs`: the compiled-in map from remote name to index base URL. -/
def baseURLs (remote : String) : Option String :=
  if remote = "hakimionedrive" then
    some "https://onedrive-vercel-index-kohl-eight-30.vercel.app"
  else if remote = "oned" then some "https://index.sauraj.eu.org"
  else if remote = "saurajcf" then some "https://my-index-azure.vercel.app"
  else none

/-- `MaxFileSize` — declared in `api/upload.go` (5 GiB). -/
def MaxFileSize : Int := 5 * 1024 * 1024 * 1024

/-- `maxRequestSize` from `main.go` (5 GiB request-size ceiling). -/
def maxRequestSize : Int := 5 * 1024 * 1024 * 1024

/-! ### filepath.Join / path cleaning -/

/-- Lexical path cleaning on components (the algorithm of Go's
`filepath.Clean` for slash-separated paths): empty and `.` components are
dropped, `..` pops the previous component (kept at the start of a
relative path, dropped at the root of an absolute one). The first
argument accumulates output components in reverse. -/
def cleanComponents (rooted : Bool) : List (List Char) → List (List Char) → List (List Char)
  | acc, [] => acc.reverse
  | acc, c :: rest =>
    if c = [] ∨ c = ['.'] then cleanComponents rooted acc rest
    else if c = ['.', '.'] then
      match acc with
      | [] =>
        if rooted then cleanComponents rooted [] rest
        else cleanComponents rooted [['.', '.']] rest
      | a :: acc2 =>
        if a = ['.', '.'] then cleanComponents rooted (c :: acc) rest
        else cleanComponents rooted acc2 rest
    else cleanComponents rooted (c :: acc) rest

/-- Go `path/filepath.Clean` (forward-slash separator). -/
def goPathClean (s : String) : String :=
  if s = "" then "."
  else
    let rooted : Bool := s.toList.head? == some '/'
    let comps := cleanComponents rooted [] (splitOnChar '/' s.toList)
    let body := String.intercalate "/" (comps.map fun c => String.mk c)
    if rooted then "/" ++ body
    else if body = "" then "." else body

/-- Go `filepath.Join`: skip leading empty elements, join the rest with
`/` and clean; all-empty input gives the empty string. -/
def goFilepathJoin (parts : List String) : String :=
  match parts.dropWhile (fun p => p == "") with
  | [] => ""
  | rest => goPathClean (String.intercalate "/" rest)

/-- The final component of a slash-separated path. -/
def baseName (s : String) : String :=
  match (splitOnChar '/' s.toList).getLast? with
  | some cs => String.mk cs
  | none => ""

/-! ### The upload handler (`Handler` in `api/upload.go`)

The handler is embedded as a pure function of the request data and an
`Env` of oracle outcomes for its effects (client construction, temp file,
body copy, chunk upload, and a possible runtime panic).  Besides the
response it returns the ordered list of side-effecting steps performed,
and the `azure.UploadParams` it built, so ordering and parameter claims
can be stated. -/

/-- One side-effecting step of a handler run. -/
inductive Step where
  | getConfig
  | parseForm
  | buildClient
  | ensureTokenValid
  | createTemp
  | copyBody
  | uploadCall
  deriving DecidableEq, Repr

/-- The JSON error body written by `sendErrorResponse`. -/
structure ErrorResponse where
  error : String
  details : String
  deriving DecidableEq, Repr

/-- The JSON success body of the upload handler. -/
structure SuccessBody where
  downloadURL : String
  fileSize : Int
  fileName : String
  deriving DecidableEq, Repr

/-- The upload handler's HTTP response. -/
inductive UploadResp where
  | success (body : SuccessBody)
  | errResp (status : Nat) (body : ErrorResponse)
  | preflight
  deriving DecidableEq, Repr

/-- `sendErrorResponse(w, statusCode, err, message)`: a JSON error body
with `error` = message and `details` = the error text. -/
def sendErrorResponse (statusCode : Nat) (err message : String) : UploadResp :=
  .errResp statusCode ⟨message, err⟩

/-- `azure.UploadParams` as filled in by the handler (`RetryDelay` is
recorded in seconds). -/
structure UploadParams where
  filePath : String
  remoteFilePath : String
  chunkSize : Int
  parallelChunks : Nat
  maxRetries : Nat
  retryDelaySeconds : Nat
  accessToken : String
  deriving DecidableEq, Repr

/-- An upload request: method and content type, the binary-mode headers,
the declared body length, and the multipart-mode form data with the
outcomes of `ParseMultipartForm` and `FormFile`. -/
structure UploadRequest where
  method : String
  contentType : String
  xRemote : String
  xRemoteFolder : String
  xFilename : String
  xChunkSize : String
  contentLength : Int
  formParseOk : Bool
  formParseErr : String
  formFields : List (String × String)
  formFileOk : Bool
  formFileErr : String
  formFileName : String
  formFileSize : Int
  deriving DecidableEq, Repr

/-- Oracle outcomes for the handler's effects. `fault` is a runtime panic
occurring somewhere inside the handler (recovered by its deferred
function). -/
structure Env where
  rcloneConfig : String
  clientBuildOk : Bool
  clientErr : String
  accessToken : String
  tempOk : Bool
  tempErr : String
  tempName : String
  copyOk : Bool
  copyErr : String
  copiedBytes : Int
  uploadOk : Bool
  uploadErr : String
  fault : Option String
  deriving DecidableEq, Repr

/-- Go `r.FormValue(key)`: the field value, or `""` when absent. -/
def formValue (fields : List (String × String)) (key : String) : String :=
  match fields.lookup key with
  | some v => v
  | none => ""

/-- The parameters the handler reads from a request. -/
structure Extracted where
  remote : String
  remoteFolder : String
  filename : String
  chunkSizeStr : String
  contentLength : Int
  deriving DecidableEq, Repr

/-- The handler's parameter-extraction phase: headers and `r.Body` in
binary mode (`Content-Type: application/octet-stream`), form values and
the uploaded file's own name and size in multipart mode. -/
def extracted (r : UploadRequest) : Extracted :=
  if r.contentType = "application/octet-stream" then
    ⟨r.xRemote, r.xRemoteFolder, r.xFilename, r.xChunkSize, r.contentLength⟩
  else
    ⟨formValue r.formFields "remote", formValue r.formFields "remoteFolder",
      r.formFileName, formValue r.formFields "chunkSize", r.formFileSize⟩

/-- The handler from parameter validation onward (`api/upload.go` lines
240-341): validations in source order, then client construction, temp
file, body copy, `UploadParams` construction and the upload call. -/
def validatePhase (env : Env) (ex : Extracted) (steps : List Step) :
    List Step × UploadResp × Option UploadParams :=
  if ex.remote = "" then
    (steps, sendErrorResponse 400 "remote is required" "Invalid request", none)
  else if (rootFolders ex.remote).isNone then
    (steps, sendErrorResponse 400 ("invalid remote: " ++ ex.remote) "Invalid request", none)
  else if ex.filename = "" then
    (steps, sendErrorResponse 400 "filename is required" "Invalid request", none)
  else if ex.chunkSizeStr = "" then
    (steps, sendErrorResponse 400 "chunk size is required" "Invalid request", none)
  else
    match parseInt64 ex.chunkSizeStr with
    | none =>
      (steps, sendErrorResponse 400 "invalid chunk size: must be between 2 and 32"
        "Invalid request", none)
    | some n =>
      if n < 2 ∨ 32 < n then
        (steps, sendErrorResponse 400 "invalid chunk size: must be between 2 and 32"
          "Invalid request", none)
      else
        let chunkSize := n * 1024 * 1024
        let steps1 := steps ++ [Step.buildClient]
        if env.clientBuildOk = false then
          (steps1, sendErrorResponse 500 env.clientErr "Failed to initialize Azure client", none)
        else
          let steps2 := steps1 ++ [Step.createTemp]
          if env.tempOk = false then
            (steps2, sendErrorResponse 500 env.tempErr "Unable to create temp file", none)
          else
            let steps3 := steps2 ++ [Step.copyBody]
            if env.copyOk = false then
              (steps3, sendErrorResponse 500 env.copyErr "Unable to save file", none)
            else
              let remoteFilePath :=
                goFilepathJoin [(rootFolders ex.remote).getD "", ex.remoteFolder, ex.filename]
              let params : UploadParams :=
                ⟨env.tempName, remoteFilePath, chunkSize, 1, 5, 10, env.accessToken⟩
              let steps4 := steps3 ++ [Step.uploadCall]
              if env.uploadOk = false then
                (steps4, sendErrorResponse 500 env.uploadErr "Failed to upload file", some params)
              else
                let downloadURL :=
                  (baseURLs ex.remote).getD "" ++ "/" ++ ex.remoteFolder ++ "/" ++ ex.filename
                (steps4, .success ⟨downloadURL, env.copiedBytes, ex.filename⟩, some params)

/-- The upload handler body (without the panic recovery): CORS preflight,
method check, embedded-config read, mode-dependent extraction, then
`validatePhase`. -/
def uploadCore (env : Env) (r : UploadRequest) :
    List Step × UploadResp × Option UploadParams :=
  if r.method = "OPTIONS" then ([], .preflight, none)
  else if r.method ≠ "POST" then
    ([], sendErrorResponse 405 ("method " ++ r.method ++ " not allowed") "Method not allowed",
      none)
  else if r.contentType = "application/octet-stream" then
    validatePhase env (extracted r) [Step.getConfig]
  else if r.formParseOk = false then
    ([Step.getConfig, Step.parseForm],
      sendErrorResponse 400 r.formParseErr "Unable to parse form data", none)
  else if r.formFileOk = false then
    ([Step.getConfig, Step.parseForm],
      sendErrorResponse 400 r.formFileErr "Unable to read file", none)
  else
    validatePhase env (extracted r) [Step.getConfig, Step.parseForm]

/-- `Handler` from `api/upload.go`: the response produced for a request,
with the deferred `recover` converting a panic into the fixed
`Internal server error` 500 response. -/
def Handler (env : Env) (r : UploadRequest) : UploadResp :=
  match env.fault with
  | some f => sendErrorResponse 500 f "Internal server error"
  | none => (uploadCore env r).2.1

/-- The ordered side-effecting steps of a (non-panicking) handler run. -/
def uploadTrace (env : Env) (r : UploadRequest) : List Step :=
  (uploadCore env r).1

/-- The `azure.UploadParams` the handler builds, when it gets that far. -/
def builtParams (env : Env) (r : UploadRequest) : Option UploadParams :=
  (uploadCore env r).2.2

/-- The server-level response: either the `maxBytesHandler` limit reply
or the wrapped handler's response. -/
inductive ServerResp where
  | limited (status : Nat) (text : String)
  | handled (resp : UploadResp)
  deriving DecidableEq, Repr

/-- `maxBytesHandler.ServeHTTP` from `main.go` composed with the upload
handler: requests whose declared `Content-Length` exceeds 5 GiB are
answered with a plain-text 413 before the handler runs. -/
def maxBytesServe (env : Env) (r : UploadRequest) : ServerResp :=
  if maxRequestSize < r.contentLength then .limited 413 "Request too large"
  else .handled (Handler env r)

/-- The steps performed at server level: none when the size limit trips. -/
def serverTrace (env : Env) (r : UploadRequest) : List Step :=
  if maxRequestSize < r.contentLength then [] else uploadTrace env r

/-- HTTP status of an upload response. -/
def respStatus : UploadResp → Nat
  | .success _ => 200
  | .errResp s _ => s
  | .preflight => 200

/-- HTTP status of a server-level response. -/
def serverStatus : ServerResp → Nat
  | .limited s _ => s
  | .handled resp => respStatus resp

/-! ### The token handler (`TokenHandler` in `api/upload.go`) -/

/-- A token request: its method and the `remote` query parameter
(`""` when absent). -/
structure TokenRequest where
  method : String
  remoteQuery : String
  deriving DecidableEq, Repr

/-- Oracle outcomes for the token handler's effects and the fields of the
Azure client after `EnsureTokenValid`. -/
structure TokenEnv where
  clientBuildOk : Bool
  clientErr : String
  tokenRefreshOk : Bool
  tokenErr : String
  accessToken : String
  refreshToken : String
  expiresIn : Int
  clientID : String
  clientSecret : String
  driveID : String
  driveType : String
  deriving DecidableEq, Repr

/-- The `TokenResponse` JSON body. -/
structure TokenResponse where
  accessToken : String
  refreshToken : String
  expiresIn : Int
  clientID : String
  clientSecret : String
  driveID : String
  driveType : String
  baseURL : String
  uploadRootPath : String
  deriving DecidableEq, Repr

/-- The token handler's HTTP response. -/
inductive TokenResp where
  | preflight
  | errResp (status : Nat) (body : ErrorResponse)
  | ok (t : TokenResponse)
  deriving DecidableEq, Repr

/-- `TokenHandler` body: method checks, `remote` validation against the
compiled-in table, then config read, client construction,
`EnsureTokenValid`, and the token response. -/
def tokenCore (env : TokenEnv) (q : TokenRequest) : List Step × TokenResp :=
  if q.method = "OPTIONS" then ([], .preflight)
  else if q.method ≠ "GET" then
    ([], .errResp 405 ⟨"Method not allowed", "method " ++ q.method ++ " not allowed"⟩)
  else if q.remoteQuery = "" then
    ([], .errResp 400 ⟨"Missing remote parameter", "remote parameter is required"⟩)
  else if (rootFolders q.remoteQuery).isNone then
    ([], .errResp 400 ⟨"Invalid remote", "invalid remote: " ++ q.remoteQuery⟩)
  else
    let steps := [Step.getConfig, Step.buildClient]
    if env.clientBuildOk = false then
      (steps, .errResp 500 ⟨"Failed to initialize Azure client", env.clientErr⟩)
    else
      let steps2 := steps ++ [Step.ensureTokenValid]
      if env.tokenRefreshOk = false then
        (steps2, .errResp 500 ⟨"Failed to refresh token", env.tokenErr⟩)
      else
        (steps2, .ok ⟨env.accessToken, env.refreshToken, env.expiresIn, env.clientID,
          env.clientSecret, env.driveID, env.driveType,
          (baseURLs q.remoteQuery).getD "", (rootFolders q.remoteQuery).getD ""⟩)

/-- `TokenHandler`'s response. -/
def TokenHandler (env : TokenEnv) (q : TokenRequest) : TokenResp :=
  (tokenCore env q).2

/-- The ordered side-effecting steps of a token handler run. -/
def tokenTrace (env : TokenEnv) (q : TokenRequest) : List Step :=
  (tokenCore env q).1

/-! ### The quota handler (`QuotaHandler` in the auxiliary api file) -/

/-- The numeric drive quota returned by `client.GetDriveQuota`. -/
structure DriveQuota where
  total : Int
  used : Int
  remaining : Int
  deleted : Int
  deriving DecidableEq, Repr

/-- One entry of the quota response (`RemoteQuota`): the four quota
figures rendered by `formatBytes` (the rendering function is a parameter
of the model, since its float formatting is outside the embedding). -/
structure RemoteQuota where
  total : String
  used : String
  remaining : String
  deleted : String
  deriving DecidableEq, Repr

/-- The `RemoteQuota` entry built from one fetched quota. -/
def quotaEntry (fmt : Int → String) (q : DriveQuota) : RemoteQuota :=
  ⟨fmt q.total, fmt q.used, fmt q.remaining, fmt q.deleted⟩

/-- The aggregation loop of `QuotaHandler`: for each remote, build the
Azure client and fetch its quota; on either failure `continue` to the
next remote, otherwise record the formatted entry under the remote's
name. `newClient` and `getDriveQuota` are the two fallible effects. -/
def quotaData {Client : Type} (newClient : String → Option Client)
    (getDriveQuota : Client → Option DriveQuota) (fmt : Int → String) :
    List String → List (String × RemoteQuota)
  | [] => []
  | remote :: rest =>
    match newClient remote with
    | none => quotaData newClient getDriveQuota fmt rest
    | some cl =>
      match getDriveQuota cl with
      | none => quotaData newClient getDriveQuota fmt rest
      | some q =>
        (remote, quotaEntry fmt q) :: quotaData newClient getDriveQuota fmt rest

/-! ### Chunk partitioning of the upload engine

Modelled from the spec: the byte-range partitioning of `UploadSession`
lives in the `azure` upload engine (module `ksau-oned-api/azure`), which
is not under `src/`; only its caller (`client.Upload` in the handler) is.
The spec fixes it as the ordered, contiguous cover of `[0, size)` by
`chunk_size`-byte ranges, the final range holding the remainder. -/

/-- Modelled from the spec: emit ranges `[pos, min (pos+c) size)` from
`pos` upward; `fuel` bounds the recursion (with `1 ≤ c`, `size` steps
always suffice). -/
def chunkRangesAux : Nat → Nat → Nat → Nat → List (Nat × Nat)
  | 0, _, _, _ => []
  | fuel + 1, pos, size, c =>
    if pos < size then (pos, min (pos + c) size) :: chunkRangesAux fuel (pos + c) size c
    else []

/-- Modelled from the spec: the ordered `ChunkRange` sequence for an
upload of `size` bytes with chunk size `c` (start inclusive, end
exclusive). -/
def chunkRanges (size c : Nat) : List (Nat × Nat) :=
  chunkRangesAux size 0 size c

/-- The ranges start at `p`, are non-empty, and each begins exactly where
the previous one ended: strict ascent, no overlap, no gap. -/
def contiguousFrom : Nat → List (Nat × Nat) → Bool
  | _, [] => true
  | p, (s, e) :: rest => s == p && decide (p < e) && contiguousFrom e rest

/-- Sum of the range lengths. -/
def sumLens (l : List (Nat × Nat)) : Nat :=
  (l.map (fun r => r.2 - r.1)).sum

/-! ### Derived request predicates and concrete sample inputs -/

/-- The handler's acceptance condition on the chunk-size field: it parses
and lands in `[2, 32]` (megabytes). -/
def chunkOkB (s : String) : Bool :=
  match parseInt64 s with
  | some n => decide (2 ≤ n) && decide (n ≤ 32)
  | none => false

/-- A request with one extra form field prepended. -/
def addFormField (r : UploadRequest) (key v : String) : UploadRequest :=
  { r with formFields := (key, v) :: r.formFields }

/-- An oracle environment in which every effect succeeds. -/
def sampleEnv : Env :=
  ⟨"[oned]\nclient_id = x\n", true, "", "tok", true, "", "/tmp/upload-a.txt-1.tmp",
    true, "", 42, true, "", none⟩

/-- A well-formed binary-mode upload request for remote `oned`. -/
def sampleBinaryRequest : UploadRequest :=
  ⟨"POST", "application/octet-stream", "oned", "docs", "a.txt", "4", 7,
    true, "", [], true, "", "", 0⟩

/-- A well-formed binary-mode upload request declaring a zero-length
body. -/
def zeroSizeRequest : UploadRequest :=
  ⟨"POST", "application/octet-stream", "oned", "docs", "a.txt", "4", 0,
    true, "", [], true, "", "", 0⟩

/-- A well-formed multipart request that also carries a
`remoteFileName` form field naming `custom.txt`, while the uploaded
file part itself is named `orig.txt`. -/
def sampleMultipartRequest : UploadRequest :=
  ⟨"POST", "multipart/form-data", "", "", "", "", 100, true, "",
    [("remoteFileName", "custom.txt"), ("remote", "hakimionedrive"),
      ("remoteFolder", "docs"), ("chunkSize", "4")],
    true, "", "orig.txt", 100⟩

/-- The upload parameters the handler builds for `sampleBinaryRequest`
under `sampleEnv`. -/
def sampleParams : UploadParams :=
  ⟨"/tmp/upload-a.txt-1.tmp", "docs/a.txt", 4194304, 1, 5, 10, "tok"⟩

/-- `sampleEnv` with a runtime fault injected. -/
def faultEnv : Env :=
  { sampleEnv with fault := some "runtime error: invalid memory address" }

/-- A well-formed token request for remote `oned`. -/
def sampleTokenEnv : TokenEnv :=
  ⟨true, "", true, "", "at", "rt", 3600, "cid", "cs", "did", "dt"⟩

/-- A binary-mode request declaring a 6 GiB body. -/
def bigRequest : UploadRequest :=
  { sampleBinaryRequest with contentLength := 6 * 1024 * 1024 * 1024 }

/-- A binary-mode request with an out-of-range chunk size field. -/
def badChunkRequest : UploadRequest :=
  ⟨"POST", "application/octet-stream", "oned", "docs", "a.txt", "64", 7,
    true, "", [], true, "", "", 0⟩

/-- A binary-mode request naming a remote outside the compiled-in set. -/
def invalidRemoteRequest : UploadRequest :=
  ⟨"POST", "application/octet-stream", "nope", "docs", "a.txt", "4", 7,
    true, "", [], true, "", "", 0⟩

/-- A token request naming a remote outside the compiled-in set. -/
def invalidTokenRequest : TokenRequest :=
  ⟨"GET", "nope"⟩

/-! ## Theorems -/

/-! ### ParseRemotes refinement lemmas -/

theorem dropTrailing_eq_rev (p : Char → Bool) (cs : List Char) :
    dropTrailing p cs = dropTrailingRev p cs := by
  induction cs with
  | nil => rfl
  | cons c cs ih =>
    unfold dropTrailing dropTrailingRev
    rw [ih]
    unfold dropTrailingRev
    rcases h : (cs.reverse.dropWhile p).reverse with _ | ⟨r, rs⟩
    · have hnil : cs.reverse.dropWhile p = [] := by
        have := congrArg List.reverse h
        simpa using this
      by_cases hp : p c
      · simp [List.dropWhile_append, hnil, hp]
      · simp [List.dropWhile_append, hnil, hp]
    · have hne : cs.reverse.dropWhile p ≠ [] := by
        intro hcon
        rw [hcon] at h
        simp at h
      have hie : (cs.reverse.dropWhile p).isEmpty = false := by
        cases hx : cs.reverse.dropWhile p with
        | nil => exact absurd hx hne
        | cons x xs => rfl
      simp only [List.reverse_cons, List.dropWhile_append, hie,
        Bool.false_eq_true, if_false, List.reverse_append, h]
      simp

theorem parseRemotesLine_eq_amended (line : List Char) :
    parseRemotesLine line = amendedRemotesLine line := by
  unfold parseRemotesLine amendedRemotesLine goTrim
  simp only [dropTrailing_eq_rev]

theorem filterMap_parseRemotes_eq_amended (ls : List (List Char)) :
    ls.filterMap parseRemotesLine = amendedListRemotes ls := by
  induction ls with
  | nil => rfl
  | cons l ls ih =>
    rw [List.filterMap_cons, parseRemotesLine_eq_amended]
    unfold amendedListRemotes
    cases amendedRemotesLine l <;> simp [ih]

/-! ### Handler helper lemmas -/

theorem mem_validatePhase_trace {env : Env} {ex : Extracted} {steps : List Step} {s : Step}
    (h : s ∈ (validatePhase env ex steps).1) :
    s ∈ steps ∨ s = Step.buildClient ∨ s = Step.createTemp ∨ s = Step.copyBody ∨
      s = Step.uploadCall := by
  unfold validatePhase at h
  repeat' split at h
  all_goals simp_all [List.mem_append]
  all_goals tauto

theorem mem_uploadTrace {env : Env} {r : UploadRequest} {s : Step}
    (h : s ∈ uploadTrace env r) :
    s = Step.getConfig ∨ s = Step.parseForm ∨ s = Step.buildClient ∨
      s = Step.createTemp ∨ s = Step.copyBody ∨ s = Step.uploadCall := by
  unfold uploadTrace uploadCore at h
  repeat' split at h
  all_goals try (rcases mem_validatePhase_trace h with hs | hs | hs | hs | hs)
  all_goals try simp_all
  all_goals tauto

theorem validatePhase_reject {env : Env} {ex : Extracted} {steps : List Step}
    (h0 : rootFolders ex.remote = none ∨ ex.filename = "" ∨
      chunkOkB ex.chunkSizeStr = false) :
    ∃ body, validatePhase env ex steps = (steps, .errResp 400 body, none) := by
  unfold validatePhase
  by_cases h1 : ex.remote = ""
  · exact ⟨⟨"Invalid request", "remote is required"⟩, by simp [h1, sendErrorResponse]⟩
  · by_cases h2 : (rootFolders ex.remote).isNone
    · exact ⟨⟨"Invalid request", "invalid remote: " ++ ex.remote⟩,
        by simp [h1, h2, sendErrorResponse]⟩
    · have h : ex.filename = "" ∨ chunkOkB ex.chunkSizeStr = false := by
        rcases h0 with h0 | h0 | h0
        · exact absurd (congrArg Option.isNone h0) (by simpa using h2)
        · exact Or.inl h0
        · exact Or.inr h0
      by_cases h3 : ex.filename = ""
      · exact ⟨⟨"Invalid request", "filename is required"⟩,
          by simp [h1, h2, h3, sendErrorResponse]⟩
      · have hc : chunkOkB ex.chunkSizeStr = false := by tauto
        by_cases h4 : ex.chunkSizeStr = ""
        · exact ⟨⟨"Invalid request", "chunk size is required"⟩,
            by simp [h1, h2, h3, h4, sendErrorResponse]⟩
        · cases hp : parseInt64 ex.chunkSizeStr with
          | none =>
            exact ⟨⟨"Invalid request", "invalid chunk size: must be between 2 and 32"⟩,
              by simp [h1, h2, h3, h4, hp, sendErrorResponse]⟩
          | some n =>
            have hrange : n < 2 ∨ 32 < n := by
              unfold chunkOkB at hc
              rw [hp] at hc
              simp at hc
              omega
            exact ⟨⟨"Invalid request", "invalid chunk size: must be between 2 and 32"⟩,
              by simp [h1, h2, h3, h4, hp, hrange, sendErrorResponse]⟩

theorem validatePhase_params {env : Env} {ex : Extracted} {steps : List Step} {p : UploadParams}
    (h : (validatePhase env ex steps).2.2 = some p) :
    ∃ n, parseInt64 ex.chunkSizeStr = some n ∧ 2 ≤ n ∧ n ≤ 32 ∧
      p.chunkSize = n * 1024 * 1024 ∧ p.parallelChunks = 1 ∧ p.maxRetries = 5 ∧
      p.retryDelaySeconds = 10 ∧ p.accessToken = env.accessToken ∧
      p.filePath = env.tempName ∧
      p.remoteFilePath =
        goFilepathJoin [(rootFolders ex.remote).getD "", ex.remoteFolder, ex.filename] := by
  unfold validatePhase at h
  repeat' split at h
  all_goals simp at h
  all_goals
    (subst h
     refine ⟨_, by assumption, by omega, by omega, rfl, rfl, rfl, rfl, rfl, rfl, rfl⟩)

theorem builtParams_via_validate {env : Env} {r : UploadRequest} {p : UploadParams}
    (h : builtParams env r = some p) :
    ∃ steps, (validatePhase env (extracted r) steps).2.2 = some p := by
  unfold builtParams uploadCore at h
  repeat' split at h
  all_goals first
    | exact ⟨_, h⟩
    | simp_all

theorem uploadCore_reject {env : Env} {r : UploadRequest} (hm : r.method = "POST")
    (hbad : rootFolders (extracted r).remote = none ∨ (extracted r).filename = "" ∨
      chunkOkB (extracted r).chunkSizeStr = false) :
    ∃ body, (uploadCore env r).2.1 = UploadResp.errResp 400 body ∧
      ((uploadCore env r).1 = [Step.getConfig] ∨
        (uploadCore env r).1 = [Step.getConfig, Step.parseForm]) := by
  have h1 : ¬ (r.method = "OPTIONS") := by rw [hm]; decide
  have h2 : ¬ (r.method ≠ "POST") := by rw [hm]; decide
  unfold uploadCore
  rw [if_neg h1, if_neg h2]
  by_cases hct : r.contentType = "application/octet-stream"
  · rw [if_pos hct]
    obtain ⟨body, hvp⟩ := @validatePhase_reject env (extracted r) [Step.getConfig] hbad
    exact ⟨body, by rw [hvp], Or.inl (by rw [hvp])⟩
  · rw [if_neg hct]
    by_cases hfp : r.formParseOk = false
    · rw [if_pos hfp]
      exact ⟨_, rfl, Or.inr rfl⟩
    · rw [if_neg hfp]
      by_cases hff : r.formFileOk = false
      · rw [if_pos hff]
        exact ⟨_, rfl, Or.inr rfl⟩
      · rw [if_neg hff]
        obtain ⟨body, hvp⟩ :=
          @validatePhase_reject env (extracted r) [Step.getConfig, Step.parseForm] hbad
        exact ⟨body, by rw [hvp], Or.inr (by rw [hvp])⟩

theorem serverReject {env : Env} {r : UploadRequest} (hm : r.method = "POST")
    (hlen : r.contentLength ≤ maxRequestSize) (hf : env.fault = none)
    (hbad : rootFolders (extracted r).remote = none ∨ (extracted r).filename = "" ∨
      chunkOkB (extracted r).chunkSizeStr = false) :
    serverStatus (maxBytesServe env r) = 400 ∧ Step.buildClient ∉ serverTrace env r ∧
      Step.uploadCall ∉ serverTrace env r := by
  have hnl : ¬ (maxRequestSize < r.contentLength) := not_lt.mpr hlen
  obtain ⟨body, hresp, htr⟩ := @uploadCore_reject env r hm hbad
  have hhandler : Handler env r = UploadResp.errResp 400 body := by
    unfold Handler
    rw [hf]
    exact hresp
  refine ⟨?_, ?_, ?_⟩
  · unfold maxBytesServe
    rw [if_neg hnl, hhandler]
    rfl
  · unfold serverTrace uploadTrace
    rw [if_neg hnl]
    rcases htr with htr | htr <;> rw [htr] <;> decide
  · unfold serverTrace uploadTrace
    rw [if_neg hnl]
    rcases htr with htr | htr <;> rw [htr] <;> decide

/-! ### Claim theorems -/

/-- C1 counterexample: a fully valid upload invocation whose run reaches
the chunk-transport call (`client.Upload`) without ever performing the
token-lifecycle step `EnsureTokenValid` — so the claimed
`ensureValid before UploadSession.run` ordering fails on the upload
handler. -/
theorem c1_counterexample :
    Step.uploadCall ∈ uploadTrace sampleEnv sampleBinaryRequest ∧
    Step.ensureTokenValid ∉ uploadTrace sampleEnv sampleBinaryRequest := by
  decide

/-- C1 (amended): the upload handler performs no token-lifecycle step at
all — `EnsureTokenValid` occurs in no upload-handler run, for any request
and any oracle outcomes; the access token passed to the upload is the one
taken from the parsed configuration.  (Only the separate token endpoint
invokes `EnsureTokenValid`.) -/
theorem c1_no_token_step (env : Env) (r : UploadRequest) :
    Step.ensureTokenValid ∉ uploadTrace env r := by
  intro hmem
  rcases mem_uploadTrace hmem with h | h | h | h | h | h <;> simp at h

/-- C1 witness: the amended statement evaluated on a concrete request. -/
theorem c1_no_token_step_witness :
    Step.ensureTokenValid ∉ uploadTrace sampleEnv sampleBinaryRequest :=
  c1_no_token_step sampleEnv sampleBinaryRequest

/-- C3 counterexample: a request declaring size 0 passes every check of
the upload path and reaches the chunk-transport call with a 200 response
— no `0 < size` precondition is enforced anywhere. -/
theorem c3_counterexample :
    zeroSizeRequest.contentLength = 0 ∧
    Step.uploadCall ∈ serverTrace sampleEnv zeroSizeRequest ∧
    serverStatus (maxBytesServe sampleEnv zeroSizeRequest) = 200 := by
  decide

/-- C3 (amended): the only size enforcement is the server-level 5 GiB
request ceiling — a request whose declared `Content-Length` exceeds
`maxRequestSize` is answered with a plain-text 413 before the upload
handler runs, and no handler step (so no network call) is performed; zero
sizes are not rejected (see the counterexample), and the handler itself
never compares the size against `MaxFileSize`. -/
theorem c3_size_limit (env : Env) (r : UploadRequest)
    (h : maxRequestSize < r.contentLength) :
    maxBytesServe env r = ServerResp.limited 413 "Request too large" ∧
    serverTrace env r = [] := by
  constructor
  · unfold maxBytesServe
    rw [if_pos h]
  · unfold serverTrace
    rw [if_pos h]

/-- C3 witness: the amended statement evaluated on a 6 GiB request. -/
theorem c3_size_limit_witness :
    maxRequestSize < bigRequest.contentLength ∧
    (maxBytesServe sampleEnv bigRequest = ServerResp.limited 413 "Request too large" ∧
      serverTrace sampleEnv bigRequest = []) :=
  ⟨by decide, c3_size_limit sampleEnv bigRequest (by decide)⟩

/-- C5: every `azure.UploadParams` the upload handler builds carries the
fixed transport policy — `ParallelChunks = 1` (sequential, ordered
fragment application), `MaxRetries = 5` and `RetryDelay = 10` seconds —
for every accepted request and every oracle environment. -/
theorem c5_upload_params_policy (env : Env) (r : UploadRequest) (p : UploadParams)
    (h : builtParams env r = some p) :
    p.parallelChunks = 1 ∧ p.maxRetries = 5 ∧ p.retryDelaySeconds = 10 := by
  obtain ⟨steps, hs⟩ := builtParams_via_validate h
  obtain ⟨n, _, _, _, _, hpar, hret, hdel, _, _, _⟩ := validatePhase_params hs
  exact ⟨hpar, hret, hdel⟩

/-- C5 witness: the policy on the concretely built parameters. -/
theorem c5_witness :
    builtParams sampleEnv sampleBinaryRequest = some sampleParams ∧
    (sampleParams.parallelChunks = 1 ∧ sampleParams.maxRetries = 5 ∧
      sampleParams.retryDelaySeconds = 10) :=
  ⟨by decide, c5_upload_params_policy sampleEnv sampleBinaryRequest sampleParams (by decide)⟩

/-- C8 counterexample: on the line `[[a]]`, `ParseRemotes` (via
`strings.Trim(line, "[]")`) strips *all* leading and trailing bracket
characters and returns `a`, while the claim's reading — removing only the
enclosing bracket pair — would return `[a]`. -/
theorem c8_counterexample :
    ParseRemotes "[[a]]\n[b]" = ["a", "b"] ∧
    claimParseRemotes "[[a]]\n[b]" = ["[a]", "b"] ∧
    ParseRemotes "[[a]]\n[b]" ≠ claimParseRemotes "[[a]]\n[b]" := by
  decide

/-- C8 (amended): for every credential-store text, `ParseRemotes` returns
exactly, in order of occurrence, the non-empty residue of every line that
(after trimming surrounding whitespace) starts with `[` and ends with
`]`, with **all** leading and trailing bracket characters removed, and
nothing else. -/
theorem c8_remote_listing (config : String) :
    ParseRemotes config = amendedParseRemotes config := by
  unfold ParseRemotes amendedParseRemotes
  rw [filterMap_parseRemotes_eq_amended]

/-- C9: a panic during upload handling is recovered and turned into the
fixed 500 JSON error response, message `Internal server error`, with the
fault as the details — it is not propagated out of the handler. -/
theorem c9_panic_recovered (env : Env) (r : UploadRequest) (f : String)
    (h : env.fault = some f) :
    Handler env r = UploadResp.errResp 500 ⟨"Internal server error", f⟩ ∧
    respStatus (Handler env r) = 500 := by
  unfold Handler
  rw [h]
  exact ⟨rfl, rfl⟩

/-- C9 witness: the recovery on a concrete fault. -/
theorem c9_witness :
    faultEnv.fault = some "runtime error: invalid memory address" ∧
    (Handler faultEnv sampleBinaryRequest =
        UploadResp.errResp 500
          ⟨"Internal server error", "runtime error: invalid memory address"⟩ ∧
      respStatus (Handler faultEnv sampleBinaryRequest) = 500) :=
  ⟨rfl, c9_panic_recovered faultEnv sampleBinaryRequest _ rfl⟩

theorem extracted_addFormField (r : UploadRequest) (v : String) :
    extracted (addFormField r "remoteFileName" v) = extracted r := by
  unfold extracted addFormField
  by_cases h : r.contentType = "application/octet-stream"
  · simp [h]
  · simp [h, formValue, List.lookup]

theorem uploadCore_addFormField (env : Env) (r : UploadRequest) (v : String) :
    uploadCore env (addFormField r "remoteFileName" v) = uploadCore env r := by
  unfold uploadCore
  rw [extracted_addFormField]
  rfl

/-- C7 counterexample: a multipart request supplying
`remoteFileName = custom.txt` while the uploaded file part is named
`orig.txt` — the filename component of the remote target path is
`orig.txt`, not the supplied `remoteFileName`, and the built parameters
fix `ParallelChunks` at 1 with no caller-supplied parallelism at all. -/
theorem c7_counterexample :
    formValue sampleMultipartRequest.formFields "remoteFileName" = "custom.txt" ∧
    (builtParams sampleEnv sampleMultipartRequest).map (fun p => baseName p.remoteFilePath) =
      some "orig.txt" ∧
    (builtParams sampleEnv sampleMultipartRequest).map (fun p => p.parallelChunks) = some 1 ∧
    ("orig.txt" : String) ≠ "custom.txt" := by
  decide

/-- C7 (amended): the upload entry point consumes remote, remoteFolder,
filename (the uploaded file part's own name in multipart mode, the
`X-Filename` header in binary mode), chunkSize and the stream; a
`remoteFileName` form field has no effect on the response or the built
upload parameters, and the parallelism is the fixed constant 1, not a
caller input. -/
theorem c7_entry_point (env : Env) (r : UploadRequest) (v : String) :
    Handler env (addFormField r "remoteFileName" v) = Handler env r ∧
    builtParams env (addFormField r "remoteFileName" v) = builtParams env r ∧
    (∀ p, builtParams env r = some p → p.parallelChunks = 1 ∧
      p.remoteFilePath =
        goFilepathJoin [(rootFolders (extracted r).remote).getD "",
          (extracted r).remoteFolder, (extracted r).filename]) := by
  refine ⟨?_, ?_, ?_⟩
  · unfold Handler
    rw [uploadCore_addFormField]
  · unfold builtParams
    rw [uploadCore_addFormField]
  · intro p h
    obtain ⟨steps, hs⟩ := builtParams_via_validate h
    obtain ⟨n, _, _, _, _, hpar, _, _, _, _, hpath⟩ := validatePhase_params hs
    exact ⟨hpar, hpath⟩

/-- C7 witness: the amended statement on a concrete multipart request. -/
theorem c7_witness :
    Handler sampleEnv (addFormField sampleMultipartRequest "remoteFileName" "z.txt") =
      Handler sampleEnv sampleMultipartRequest ∧
    (sampleParams.parallelChunks = 1 ∧
      sampleParams.remoteFilePath =
        goFilepathJoin [(rootFolders (extracted sampleBinaryRequest).remote).getD "",
          (extracted sampleBinaryRequest).remoteFolder,
          (extracted sampleBinaryRequest).filename]) :=
  ⟨(c7_entry_point sampleEnv sampleMultipartRequest "z.txt").1,
    (c7_entry_point sampleEnv sampleBinaryRequest "z.txt").2.2 sampleParams (by decide)⟩

/-- C4: for every in-limit POST upload request, acceptance requires a
non-empty filename and a chunk-size field parsing to `n ∈ [2, 32]`:
otherwise the response is an HTTP 400 and neither the storage client
construction nor the upload call happens; when parameters are built, the
effective chunk size is exactly `n * 1024 * 1024` bytes, within
[2 MiB, 32 MiB]. -/
theorem c4_validation (env : Env) (r : UploadRequest)
    (hm : r.method = "POST") (hlen : r.contentLength ≤ maxRequestSize)
    (hf : env.fault = none) :
    (((extracted r).filename = "" ∨ chunkOkB (extracted r).chunkSizeStr = false) →
      serverStatus (maxBytesServe env r) = 400 ∧
      Step.buildClient ∉ serverTrace env r ∧ Step.uploadCall ∉ serverTrace env r) ∧
    (∀ p, builtParams env r = some p →
      ∃ n, parseInt64 (extracted r).chunkSizeStr = some n ∧ 2 ≤ n ∧ n ≤ 32 ∧
        p.chunkSize = n * 1024 * 1024 ∧ 2 * 1024 * 1024 ≤ p.chunkSize ∧
        p.chunkSize ≤ 32 * 1024 * 1024) := by
  constructor
  · intro hbad
    exact serverReject hm hlen hf (Or.inr hbad)
  · intro p h
    obtain ⟨steps, hs⟩ := builtParams_via_validate h
    obtain ⟨n, hn, h2, h32, hsize, _, _, _, _, _, _⟩ := validatePhase_params hs
    refine ⟨n, hn, h2, h32, hsize, ?_, ?_⟩ <;> rw [hsize] <;> nlinarith

/-- C4 witness: a rejected over-range chunk size and the accepted
parameters of a valid request. -/
theorem c4_witness :
    serverStatus (maxBytesServe sampleEnv badChunkRequest) = 400 ∧
    Step.buildClient ∉ serverTrace sampleEnv badChunkRequest ∧
    (∃ n, parseInt64 (extracted sampleBinaryRequest).chunkSizeStr = some n ∧
      2 ≤ n ∧ n ≤ 32 ∧ sampleParams.chunkSize = n * 1024 * 1024 ∧
      2 * 1024 * 1024 ≤ sampleParams.chunkSize ∧
      sampleParams.chunkSize ≤ 32 * 1024 * 1024) :=
  ⟨((c4_validation sampleEnv badChunkRequest rfl (by decide) rfl).1 (by decide)).1,
    ((c4_validation sampleEnv badChunkRequest rfl (by decide) rfl).1 (by decide)).2.1,
    (c4_validation sampleEnv sampleBinaryRequest rfl (by decide) rfl).2 sampleParams
      (by decide)⟩

/-- C10: the accepted remotes are exactly the compiled-in set
`{hakimionedrive, oned, saurajcf}` with their fixed root folders and base
URLs; any other remote name is rejected with HTTP 400 by both the upload
and token endpoints before any client is built — for every oracle
environment, in particular independent of the credential-store
contents. -/
theorem c10_fixed_remotes (name : String) (env : Env) (r : UploadRequest)
    (tenv : TokenEnv) (q : TokenRequest) :
    ((rootFolders name).isSome = true ↔
      name = "hakimionedrive" ∨ name = "oned" ∨ name = "saurajcf") ∧
    (rootFolders "hakimionedrive" = some "Public" ∧ rootFolders "oned" = some "" ∧
      rootFolders "saurajcf" = some "MY_BOMT_STUFFS" ∧
      baseURLs "hakimionedrive" =
        some "https://onedrive-vercel-index-kohl-eight-30.vercel.app" ∧
      baseURLs "oned" = some "https://index.sauraj.eu.org" ∧
      baseURLs "saurajcf" = some "https://my-index-azure.vercel.app") ∧
    (r.method = "POST" → r.contentLength ≤ maxRequestSize → env.fault = none →
      rootFolders (extracted r).remote = none →
      serverStatus (maxBytesServe env r) = 400 ∧ Step.buildClient ∉ serverTrace env r) ∧
    (q.method = "GET" → rootFolders q.remoteQuery = none →
      (∃ body, TokenHandler tenv q = TokenResp.errResp 400 body) ∧
      tokenTrace tenv q = []) := by
  refine ⟨?_, ⟨rfl, rfl, rfl, rfl, rfl, rfl⟩, ?_, ?_⟩
  · unfold rootFolders
    split_ifs with h1 h2 h3 <;> simp_all
  · intro hm hlen hf hrem
    exact ⟨(serverReject hm hlen hf (Or.inl hrem)).1,
      (serverReject hm hlen hf (Or.inl hrem)).2.1⟩
  · intro hqm hqrem
    have h1 : ¬ (q.method = "OPTIONS") := by rw [hqm]; decide
    have h2 : ¬ (q.method ≠ "GET") := by rw [hqm]; decide
    unfold TokenHandler tokenTrace tokenCore
    rw [if_neg h1, if_neg h2]
    by_cases h3 : q.remoteQuery = ""
    · rw [if_pos h3]
      exact ⟨⟨_, rfl⟩, rfl⟩
    · rw [if_neg h3, if_pos (show (rootFolders q.remoteQuery).isNone = true by
        rw [hqrem]; rfl)]
      exact ⟨⟨_, rfl⟩, rfl⟩

/-- C10 witness: the set membership for `oned`, a rejected unknown remote
on the upload path, and a rejected unknown remote on the token path. -/
theorem c10_witness :
    ((rootFolders "oned").isSome = true ↔
      ("oned" = "hakimionedrive" ∨ "oned" = "oned" ∨ "oned" = "saurajcf")) ∧
    serverStatus (maxBytesServe sampleEnv invalidRemoteRequest) = 400 ∧
    (∃ body, TokenHandler sampleTokenEnv invalidTokenRequest = TokenResp.errResp 400 body) :=
  ⟨(c10_fixed_remotes "oned" sampleEnv invalidRemoteRequest sampleTokenEnv
      invalidTokenRequest).1,
    ((c10_fixed_remotes "oned" sampleEnv invalidRemoteRequest sampleTokenEnv
        invalidTokenRequest).2.2.1 rfl (by decide) rfl (by decide)).1,
    ((c10_fixed_remotes "oned" sampleEnv invalidRemoteRequest sampleTokenEnv
        invalidTokenRequest).2.2.2 rfl (by decide)).1⟩

/-- C6: in the quota aggregation, an entry appears for a remote exactly
when it is configured and both client construction and the quota fetch
succeed for it — a failure on one remote never suppresses the populated
entries of the others, and failed remotes are exactly the omitted ones. -/
theorem c6_quota_aggregation {Client : Type} (newClient : String → Option Client)
    (getDriveQuota : Client → Option DriveQuota) (fmt : Int → String)
    (remotes : List String) (r : String) (entry : RemoteQuota) :
    (r, entry) ∈ quotaData newClient getDriveQuota fmt remotes ↔
      r ∈ remotes ∧ ∃ cl q, newClient r = some cl ∧ getDriveQuota cl = some q ∧
        entry = quotaEntry fmt q := by
  induction remotes with
  | nil => simp [quotaData]
  | cons a rest ih =>
    unfold quotaData
    by_cases hra : r = a
    · subst hra
      cases hc : newClient r with
      | none => simp [hc, ih]
      | some cl =>
        cases hq : getDriveQuota cl with
        | none => simp [hc, hq, ih]
        | some q =>
          simp only [hq]
          rw [hc] at ih
          constructor
          · intro hmem
            rcases List.mem_cons.mp hmem with heq | hmem2
            · have hent : entry = quotaEntry fmt q := congrArg Prod.snd heq
              exact ⟨List.mem_cons_self r rest, cl, q, rfl, hq, hent⟩
            · obtain ⟨hr, hE⟩ := ih.mp hmem2
              exact ⟨List.mem_cons_of_mem r hr, hE⟩
          · rintro ⟨hr, cl2, q2, hcl2, hq2, hentry⟩
            injection hcl2 with hcl2
            subst hcl2
            rw [hq] at hq2
            injection hq2 with hq2
            subst hq2
            exact List.mem_cons.mpr (Or.inl (by rw [hentry]))
    · cases hc : newClient a with
      | none => simp [hc, ih, hra]
      | some cl =>
        cases hq : getDriveQuota cl with
        | none => simp [hc, hq, ih, hra]
        | some q => simp [hc, hq, ih, hra]

/-- C6 witness: a concrete aggregation in which the second remote's fetch
fails and the first remote's entry is still present. -/
theorem c6_witness :
    ("oned", quotaEntry (fun _ => "x") ⟨1, 2, 3, 4⟩) ∈
      quotaData (fun nm => if nm = "oned" then some () else none)
        (fun _ => some ⟨1, 2, 3, 4⟩) (fun _ => "x") ["oned", "bad"] :=
  (c6_quota_aggregation (fun nm => if nm = "oned" then some () else none)
      (fun _ => some ⟨1, 2, 3, 4⟩) (fun _ => "x") ["oned", "bad"] "oned"
      (quotaEntry (fun _ => "x") ⟨1, 2, 3, 4⟩)).mpr
    ⟨by decide, (), ⟨1, 2, 3, 4⟩, rfl, rfl, rfl⟩

/-! ### Chunk-partition lemmas (C2) -/

theorem chunkRangesAux_nil {fuel pos size c : Nat} (h : ¬ pos < size) :
    chunkRangesAux fuel pos size c = [] := by
  cases fuel <;> simp [chunkRangesAux, h]

theorem contiguousFrom_chunkAux {c : Nat} (hc : 1 ≤ c) :
    ∀ (fuel pos size : Nat), size - pos ≤ fuel →
      contiguousFrom pos (chunkRangesAux fuel pos size c) = true := by
  intro fuel
  induction fuel with
  | zero =>
    intro pos size h
    simp [chunkRangesAux, contiguousFrom]
  | succ fuel ih =>
    intro pos size h
    unfold chunkRangesAux
    by_cases hp : pos < size
    · rw [if_pos hp]
      by_cases hpc : pos + c < size
      · have hmin : min (pos + c) size = pos + c := by omega
        rw [hmin]
        simp only [contiguousFrom, Bool.and_eq_true, beq_iff_eq, decide_eq_true_eq]
        exact ⟨⟨trivial, by omega⟩, ih (pos + c) size (by omega)⟩
      · have hmin : min (pos + c) size = size := by omega
        rw [hmin, chunkRangesAux_nil (show ¬ pos + c < size by omega)]
        simp only [contiguousFrom, Bool.and_eq_true, beq_iff_eq, decide_eq_true_eq]
        exact ⟨⟨trivial, hp⟩, trivial⟩
    · rw [if_neg hp]
      rfl

theorem sumLens_chunkAux {c : Nat} (hc : 1 ≤ c) :
    ∀ (fuel pos size : Nat), size - pos ≤ fuel →
      sumLens (chunkRangesAux fuel pos size c) = size - pos := by
  intro fuel
  induction fuel with
  | zero =>
    intro pos size h
    have h0 : size - pos = 0 := by omega
    simp [chunkRangesAux, sumLens, h0]
  | succ fuel ih =>
    intro pos size h
    unfold chunkRangesAux
    by_cases hp : pos < size
    · rw [if_pos hp]
      simp only [sumLens, List.map_cons, List.sum_cons]
      have hrec := ih (pos + c) size (by omega)
      simp only [sumLens] at hrec
      rw [hrec]
      omega
    · rw [if_neg hp]
      simp only [sumLens, List.map_nil, List.sum_nil]
      omega

theorem getLast_chunkAux {c : Nat} (hc : 1 ≤ c) :
    ∀ (fuel pos size : Nat), pos < size → size - pos ≤ fuel →
      ∃ l, (chunkRangesAux fuel pos size c).getLast? = some (l, size) ∧
        size - l = (if (size - pos) % c = 0 then c else (size - pos) % c) := by
  intro fuel
  induction fuel with
  | zero =>
    intro pos size hp h
    exact absurd h (by omega)
  | succ fuel ih =>
    intro pos size hp h
    unfold chunkRangesAux
    rw [if_pos hp]
    by_cases hpc : pos + c < size
    · have hmin : min (pos + c) size = pos + c := by omega
      rw [hmin]
      obtain ⟨l, hl, hd⟩ := ih (pos + c) size hpc (by omega)
      refine ⟨l, ?_, ?_⟩
      · cases hrest : chunkRangesAux fuel (pos + c) size c with
        | nil =>
          rw [hrest] at hl
          simp at hl
        | cons y ys =>
          rw [hrest] at hl
          rw [List.getLast?_cons_cons]
          exact hl
      · rw [hd]
        have hmod : (size - (pos + c)) % c = (size - pos) % c := by
          have h1 : size - pos = (size - (pos + c)) + c := by omega
          rw [h1, Nat.add_mod_right]
        rw [hmod]
    · have hmin : min (pos + c) size = size := by omega
      rw [hmin, chunkRangesAux_nil (show ¬ pos + c < size by omega)]
      refine ⟨pos, by simp, ?_⟩
      by_cases hz : (size - pos) % c = 0
      · rw [if_pos hz]
        have hd : size - pos = c := by
          rcases Nat.lt_or_ge (size - pos) c with hlt | hge
          · have := Nat.mod_eq_of_lt hlt
            omega
          · omega
        omega
      · rw [if_neg hz]
        have hd : (size - pos) % c = size - pos := by
          rcases Nat.lt_or_ge (size - pos) c with hlt | hge
          · exact Nat.mod_eq_of_lt hlt
          · have hd2 : size - pos = c := by omega
            rw [hd2] at hz
            simp [Nat.mod_self] at hz
        omega

/-- C2 (modelled from the spec, see `chunkRanges`): for every positive
size and chunk size within [2 MiB, 32 MiB], the generated ranges exactly
partition `[0, size)` — contiguous from 0 (hence strictly ascending and
non-overlapping), lengths summing to `size`, the final range ending at
`size` with length `size mod chunk` (or `chunk` when evenly divisible) —
and the computation is deterministic. -/
theorem c2_chunk_partition (size c : Nat) (h0 : 0 < size)
    (h2 : 2 * 1024 * 1024 ≤ c) (h32 : c ≤ 32 * 1024 * 1024) :
    contiguousFrom 0 (chunkRanges size c) = true ∧
    sumLens (chunkRanges size c) = size ∧
    (∃ l, (chunkRanges size c).getLast? = some (l, size) ∧
      size - l = (if size % c = 0 then c else size % c)) ∧
    chunkRanges size c = chunkRanges size c := by
  have hc : 1 ≤ c := by omega
  unfold chunkRanges
  refine ⟨contiguousFrom_chunkAux hc size 0 size (by omega), ?_, ?_, rfl⟩
  · have := sumLens_chunkAux hc size 0 size (by omega)
    simpa using this
  · have := getLast_chunkAux hc size 0 size h0 (by omega)
    simpa using this

/-- C2 witness: the partition properties instantiated at a concrete size
and chunk size. -/
theorem c2_witness :
    0 < 3 ∧ 2 * 1024 * 1024 ≤ 2097152 ∧ (2097152 : Nat) ≤ 32 * 1024 * 1024 ∧
    (contiguousFrom 0 (chunkRanges 3 2097152) = true ∧
      sumLens (chunkRanges 3 2097152) = 3 ∧
      (∃ l, (chunkRanges 3 2097152).getLast? = some (l, 3) ∧
        3 - l = (if 3 % 2097152 = 0 then 2097152 else 3 % 2097152)) ∧
      chunkRanges 3 2097152 = chunkRanges 3 2097152) :=
  ⟨by decide, by decide, by decide,
    c2_chunk_partition 3 2097152 (by decide) (by decide) (by decide)⟩

end KsauWeb
